import Mathlib

/-!
Verification development for the ew2landers repository.

The build-time pipeline (`tools/build.ps1`) and the client widget
(`docs/js/periscope-sidebar.js`) are shallowly embedded below.  JavaScript
strings become Lean `String`s (with structural-recursion helpers over
`List Char` so every definition evaluates in the kernel), absent / `null`
fields become `Option`, JavaScript numbers used as seat counts become `Int`,
and date parsing (`new Date(...)` / `[datetime]::Parse`) is an explicit
`String → Option Int` parameter giving the parsed timestamp.
-/

namespace EW2

/-! ## JavaScript string primitives -/

/-- Normalization `x || null` applied to an optional string: the empty
string is falsy in JavaScript, so it collapses to `none`. -/
def jsFalsyStr : Option String → Option String
  | none => none
  | some s => if s = "" then none else some s

/-- Model of JavaScript `String(x)` on a possibly-absent string value:
`String(undefined)` is the text `"undefined"`. -/
def jsToString : Option String → String
  | none => "undefined"
  | some s => s

/-- Model of `x || ""` on an optional string (absent and empty both give `""`). -/
def jsOrEmpty : Option String → String
  | none => ""
  | some s => s

/-- Is `p` a prefix of `l`?  (Structural helper for the substring test.) -/
def prefixesList : List Char → List Char → Bool
  | [], _ => true
  | _ :: _, [] => false
  | p :: ps, c :: cs => p = c && prefixesList ps cs

/-- Occurrence test on character lists, scanning left to right. -/
def occursIn (pat : List Char) : List Char → Bool
  | [] => prefixesList pat []
  | c :: cs => prefixesList pat (c :: cs) || occursIn pat cs

/-- Model of `h.indexOf(pat) !== -1` on JavaScript strings. -/
def strContains (h pat : String) : Bool :=
  occursIn pat.data h.data

/-- Split a character list at every occurrence of the separator character;
model of JavaScript `s.split(sep)` for a one-character separator. -/
def splitOnChar (sep : Char) : List Char → List (List Char)
  | [] => [[]]
  | c :: cs =>
    let rest := splitOnChar sep cs
    if c = sep then [] :: rest
    else match rest with
      | [] => [[c]]
      | r :: rs => (c :: r) :: rs

/-- Model of JavaScript `String.prototype.trim` (whitespace from both ends)
on a character list. -/
def trimChars (l : List Char) : List Char :=
  ((l.dropWhile Char.isWhitespace).reverse.dropWhile Char.isWhitespace).reverse

/-! ## Client feed data model (periscope-sidebar.js, §3 of the spec)

A feed session record `{ start, course_id, family, certBody, deliveryMode,
location, cleanTitle|title, seats, session_id }`.  String-valued fields
that may be absent are `Option String`.  The `seats` field is either
absent, an actual number, or some other (non-number) JSON value — the code
tests `typeof session.seats === "number"`, so non-number values (carried
here as their string text) matter. -/

/-- Value found in the `seats` field of a feed record. -/
inductive SeatVal where
  | absent : SeatVal
  | num : Int → SeatVal
  | nonNum : String → SeatVal
deriving DecidableEq, Repr

/-- Client-side session record as served in the JSON feed. -/
structure Session where
  start : Option String := none
  course_id : Option String := none
  family : Option String := none
  certBody : Option String := none
  deliveryMode : Option String := none
  location : Option String := none
  cleanTitle : Option String := none
  title : Option String := none
  seats : SeatVal := .absent
  session_id : Option String := none
deriving DecidableEq, Repr

/-- The externally mutated global filter `window.PeriscopeFilter`. -/
structure Filter where
  type : Option String := none
  value : Option String := none
deriving DecidableEq, Repr

/-! ## Filter Engine

`periscope-sidebar.js` contains two divergent versions of
`filterSessions`: the stand-alone fragment at the top of the file
(multi-value `course_id` allow-list) and the one inside `initSidebar`
(single-value `course_id`).  Both are embedded.  `parse` models
`new Date(string)` returning a timestamp, `none` for an invalid date;
`now` models `new Date()` at call time. -/

/-- The common upcoming-session test:
`if (!s.start) return false; var d = new Date(s.start); return !isNaN(d.getTime()) && d >= now;`. -/
def isUpcoming (parse : String → Option Int) (now : Int) (s : Session) : Bool :=
  match s.start with
  | none => false
  | some str =>
    if str = "" then false
    else
      match parse str with
      | none => false
      | some t => decide (now ≤ t)

/-- Allow-list pre-processing of the stand-alone `filterSessions`:
`String(value).split(",").map(trim).filter(nonempty)`. -/
def parseAllowList (value : String) : List String :=
  (((splitOnChar ',' value.data).map trimChars).filter
      (fun l => l.length ≠ 0)).map (fun l => String.mk l)

/-- The per-session predicate of the `filterSessions` defined inside
`initSidebar`: per-type dispatch ending in the fail-open `return true`
for unknown filter types. -/
def matchesFilter (t v : String) (s : Session) : Bool :=
  if t = "family" then s.family == some v
  else if t = "certBody" then s.certBody == some v
  else if t = "delivery" then s.deliveryMode == some v
  else if t = "course_id" then jsToString s.course_id == v
  else if t = "location_contains" then strContains (jsOrEmpty s.location) v
  else true

/-- The `filterSessions` defined inside `initSidebar` in
`docs/js/periscope-sidebar.js` (single-value `course_id` comparison
`String(s.course_id) === String(value)`). -/
def filterSessions (parse : String → Option Int) (now : Int) (f : Filter)
    (allSessions : List Session) : List Session :=
  if allSessions.length = 0 then []
  else
    let upcoming := allSessions.filter (isUpcoming parse now)
    match jsFalsyStr f.type, jsFalsyStr f.value with
    | some t, some v => upcoming.filter (matchesFilter t v)
    | _, _ => upcoming

/-- Text the stand-alone fragment compares against the allow-list:
`var sid = (s.course_id != null) ? String(s.course_id) : "";`. -/
def courseIdText (s : Session) : String :=
  match s.course_id with
  | some c => c
  | none => ""

/-- Per-session predicate of the stand-alone fragment; its `course_id`
branch keeps everything when the pre-processed allow-list is empty
(`if (!courseIdList || !courseIdList.length) return true;`) and otherwise
tests membership. -/
def matchesFilterMulti (t v : String) (courseIdList : List String) (s : Session) : Bool :=
  if t = "family" then s.family == some v
  else if t = "certBody" then s.certBody == some v
  else if t = "delivery" then s.deliveryMode == some v
  else if t = "course_id" then
    (if courseIdList.length = 0 then true else courseIdList.contains (courseIdText s))
  else if t = "location_contains" then strContains (jsOrEmpty s.location) v
  else true

/-- The stand-alone `filterSessions` fragment at the top of
`docs/js/periscope-sidebar.js`, whose `course_id` branch matches against a
comma-separated allow-list (and keeps everything when the parsed list is
empty: `if (!courseIdList || !courseIdList.length) return true;`). -/
def filterSessionsMulti (parse : String → Option Int) (now : Int) (f : Filter)
    (allSessions : List Session) : List Session :=
  if allSessions.length = 0 then []
  else
    let upcoming := allSessions.filter (isUpcoming parse now)
    match jsFalsyStr f.type, jsFalsyStr f.value with
    | some t, some v =>
      let courseIdList := if t = "course_id" then parseAllowList v else []
      upcoming.filter (matchesFilterMulti t v courseIdList)
    | _, _ => upcoming

/-! ## Card Renderer (`escapeHtml`, `buildCardHtml`)

Locale date/time formatting (`toLocaleDateString` / `toLocaleTimeString`)
is abstracted as the parameters `fmtD fmtT : Int → String` applied to the
parsed timestamp. -/

/-- Expansion of one character under
`String(str).replace(/[&<>"']/g, ...)` in `escapeHtml`. -/
def escChars (c : Char) : List Char :=
  if c = '&' then "&amp;".data
  else if c = '<' then "&lt;".data
  else if c = '>' then "&gt;".data
  else if c = '"' then "&quot;".data
  else if c = '\'' then "&#39;".data
  else [c]

/-- Concatenated per-character expansion. -/
def escapeConcat : List Char → List Char
  | [] => []
  | c :: cs => escChars c ++ escapeConcat cs

/-- The widget's `escapeHtml` (the `if (!str) return ""` guard is invisible
on plain strings, since the only falsy string is `""`, which maps to `""`). -/
def escapeHtml (s : String) : String :=
  String.mk (escapeConcat s.data)

/-- Does a string avoid every character that `escapeHtml` rewrites? -/
def noSpecialChars (s : String) : Bool :=
  s.data.all (fun c => !(c = '&' || c = '<' || c = '>' || c = '"' || c = '\''))

/-- JavaScript `a || b || ... || default` over optional strings. -/
def jsFalsyChain : List (Option String) → String → String
  | [], d => d
  | o :: rest, d =>
    match jsFalsyStr o with
    | some s => s
    | none => jsFalsyChain rest d

/-- The widget's `formatDateTime`: an invalid date yields
`{date: "Date TBA", time: ""}`, otherwise the locale-formatted pair. -/
def formatDateTime (parse : String → Option Int) (fmtD fmtT : Int → String)
    (iso : Option String) : String × String :=
  match iso.bind parse with
  | none => ("Date TBA", "")
  | some t => (fmtD t, fmtT t)

/-- Seat label and CSS class computed in `buildCardHtml` from
`session.seats` (`typeof session.seats === "number"` guards the numeric
branch, so absent and non-number values both give the default pair). -/
def seatInfo : SeatVal → String × String
  | .num n =>
    if n ≤ 0 then ("Class full", "periscope-seats periscope-seats-full")
    else if n ≤ 2 then
      (toString n ++ (if n = 1 then " seat left" else " seats left"),
        "periscope-seats periscope-seats-low")
    else (toString n ++ " seats open", "periscope-seats")
  | _ => ("Open seats", "periscope-seats")

/-- Registration-link target: a per-session deep link when `session_id`
is truthy, else the configured fallback `scheduleLink`. -/
def registerUrl (scheduleLink : String) (session : Session) : String :=
  match jsFalsyStr session.session_id with
  | some sid => "https://coastalcprtraining.enrollware.com/enroll?id=" ++ sid
  | none => scheduleLink

/-- The widget's `buildCardHtml`, transcribed push by push. -/
def buildCardHtml (parse : String → Option Int) (fmtD fmtT : Int → String)
    (scheduleLink : String) (session : Session) : String :=
  let dt := formatDateTime parse fmtD fmtT session.start
  let title := jsFalsyChain [session.cleanTitle, session.title, session.family] "CPR Class"
  let location := jsFalsyChain [session.location] "Location TBA"
  let url := registerUrl scheduleLink session
  let seat := seatInfo session.seats
  "<div class=\"periscope-card\">"
  ++ "<div class=\"periscope-row-top\">"
  ++ "<div>"
  ++ "<div class=\"periscope-date\">" ++ dt.1 ++ "</div>"
  ++ "<div class=\"periscope-time\">" ++ dt.2 ++ "</div>"
  ++ "</div>"
  ++ "<div class=\"periscope-location\">" ++ escapeHtml title ++ "</div>"
  ++ "</div>"
  ++ "<div class=\"periscope-location\">" ++ escapeHtml location ++ "</div>"
  ++ "<div class=\"periscope-meta\">"
  ++ "<div class=\"periscope-price\"></div>"
  ++ "<div class=\"" ++ seat.2 ++ "\">" ++ seat.1 ++ "</div>"
  ++ "</div>"
  ++ "<div class=\"periscope-card-actions\">"
  ++ "<a class=\"periscope-button periscope-button-primary periscope-register-link\" "
  ++ "data-course-id=\"" ++ jsOrEmpty session.course_id ++ "\" "
  ++ "href=\"" ++ url ++ "\">Register</a>"
  ++ "</div>"
  ++ "</div>"

/-- Modelled from the spec's words "All interpolated text content must be
escaped against markup injection before insertion": the same card markup
with `escapeHtml` also applied to the registration-link target and the
course-id attribute value (the fields `buildCardHtml` interpolates raw).
This definition exists only to be compared with `buildCardHtml`. -/
def buildCardHtmlEscAll (parse : String → Option Int) (fmtD fmtT : Int → String)
    (scheduleLink : String) (session : Session) : String :=
  let dt := formatDateTime parse fmtD fmtT session.start
  let title := jsFalsyChain [session.cleanTitle, session.title, session.family] "CPR Class"
  let location := jsFalsyChain [session.location] "Location TBA"
  let url := registerUrl scheduleLink session
  let seat := seatInfo session.seats
  "<div class=\"periscope-card\">"
  ++ "<div class=\"periscope-row-top\">"
  ++ "<div>"
  ++ "<div class=\"periscope-date\">" ++ dt.1 ++ "</div>"
  ++ "<div class=\"periscope-time\">" ++ dt.2 ++ "</div>"
  ++ "</div>"
  ++ "<div class=\"periscope-location\">" ++ escapeHtml title ++ "</div>"
  ++ "</div>"
  ++ "<div class=\"periscope-location\">" ++ escapeHtml location ++ "</div>"
  ++ "<div class=\"periscope-meta\">"
  ++ "<div class=\"periscope-price\"></div>"
  ++ "<div class=\"" ++ seat.2 ++ "\">" ++ seat.1 ++ "</div>"
  ++ "</div>"
  ++ "<div class=\"periscope-card-actions\">"
  ++ "<a class=\"periscope-button periscope-button-primary periscope-register-link\" "
  ++ "data-course-id=\"" ++ escapeHtml (jsOrEmpty session.course_id) ++ "\" "
  ++ "href=\"" ++ escapeHtml url ++ "\">Register</a>"
  ++ "</div>"
  ++ "</div>"

/-! ## Widget state, `load`, and `refresh` -/

/-- Value found in the `sessions` field of the feed body. -/
inductive SessField where
  | arr : List Session → SessField
  | nonArray : SessField
deriving DecidableEq

/-- Parsed JSON feed body: a possible count field next to a possible
`sessions` field. -/
structure FeedData where
  count : Option Int := none
  sessions : Option SessField := none
deriving DecidableEq

/-- Outcome of the `fetch(scheduleUrl, {cache: "no-store"})` round trip. -/
inductive FetchOutcome where
  | httpFailure : Nat → FetchOutcome
  | jsonError : FetchOutcome
  | success : Option FeedData → FetchOutcome
deriving DecidableEq

/-- The success-path extraction
`var sessions = data && data.sessions ? data.sessions : [];`
followed by `if (!Array.isArray(sessions)) sessions = [];`. -/
def extractSessions : Option FeedData → List Session
  | none => []
  | some fd =>
    match fd.sessions with
    | some (.arr l) => l
    | some .nonArray => []
    | none => []

/-- Display outcome of one `load()` call. -/
inductive LoadResult where
  | errorState : LoadResult
  | loaded : List Session → LoadResult
deriving DecidableEq

/-- The widget's `load()`: missing URL or any fetch/parse failure reaches
`setError`; a successful body stores the extracted array and renders. -/
def load (scheduleUrl : Option String) (outcome : FetchOutcome) : LoadResult :=
  match jsFalsyStr scheduleUrl with
  | none => .errorState
  | some _ =>
    match outcome with
    | .httpFailure _ => .errorState
    | .jsonError => .errorState
    | .success d => .loaded (extractSessions d)

/-- What `PeriscopeSidebar.refresh` does after reading the filter. -/
inductive RefreshAction where
  | rerender : RefreshAction
  | callLoad : RefreshAction
deriving DecidableEq

/-- Widget state: the stored session array plus a history flag (not kept
by the code) recording whether any `load()` ever completed successfully. -/
structure WidgetState where
  allSessions : List Session
  hasLoaded : Bool
deriving DecidableEq

/-- State at `initSidebar` time: `state = { allSessions: [], ... }`. -/
def initState : WidgetState := ⟨[], false⟩

/-- Dispatch in `PeriscopeSidebar.refresh`:
`if (state.allSessions && state.allSessions.length) render(); else load();`. -/
def refreshAction (st : WidgetState) : RefreshAction :=
  if st.allSessions.length ≠ 0 then .rerender else .callLoad

/-- Completed network events affecting the widget state. -/
inductive WidgetEvent where
  | fetchOk : List Session → WidgetEvent
  | fetchFail : WidgetEvent
deriving DecidableEq

/-- Effect of one completed fetch on the state: success overwrites
`state.allSessions`; failure leaves it untouched (only the display
changes). -/
def stepEvent (st : WidgetState) : WidgetEvent → WidgetState
  | .fetchOk l => { allSessions := l, hasLoaded := true }
  | .fetchFail => st

/-- State after a sequence of completed fetches from startup. -/
def runEvents (es : List WidgetEvent) : WidgetState :=
  es.foldl stepEvent initState

/-! ## Slug (`tools/build.ps1`, function `Slug`)

`$s -replace '[^\p{L}\p{Nd}]+','-' -replace '[-]+','-' -replace '^-|-$',''`
then `ToLowerInvariant`.  Character classes and invariant lower-casing are
modelled on the ASCII range (`Char.isAlpha` / `Char.isDigit` and a +32
shift on `A`–`Z`). -/

/-- Model of the `[\p{L}\p{Nd}]` character class. -/
def isWordChar (c : Char) : Bool := c.isAlpha || c.isDigit

/-- Worker for the first `-replace`: the flag records whether the previous
character belonged to a non-word run (whose hyphen is already emitted). -/
def squashNonWordGo : Bool → List Char → List Char
  | _, [] => []
  | inRun, c :: cs =>
    if isWordChar c then c :: squashNonWordGo false cs
    else if inRun then squashNonWordGo true cs
    else '-' :: squashNonWordGo true cs

/-- First `-replace`: every maximal run of non-word characters becomes a
single hyphen. -/
def squashNonWord (l : List Char) : List Char :=
  squashNonWordGo false l

/-- Worker for the second `-replace`, same flag discipline for hyphen runs. -/
def squashHyphensGo : Bool → List Char → List Char
  | _, [] => []
  | inRun, c :: cs =>
    if c = '-' then
      (if inRun then squashHyphensGo true cs else '-' :: squashHyphensGo true cs)
    else c :: squashHyphensGo false cs

/-- Second `-replace`: runs of hyphens collapse to one. -/
def squashHyphens (l : List Char) : List Char :=
  squashHyphensGo false l

/-- Third `-replace '^-|-$',''`: one leading and one trailing hyphen go. -/
def trimLeadHyphen : List Char → List Char
  | [] => []
  | c :: cs => if c = '-' then cs else c :: cs

/-- Trailing counterpart of `trimLeadHyphen`. -/
def trimHyphens (l : List Char) : List Char :=
  (trimLeadHyphen (trimLeadHyphen l).reverse).reverse

/-- Model of `Char.ToLowerInvariant` on the ASCII range. -/
def lowerChar (c : Char) : Char :=
  if c.isUpper then Char.ofNat (c.toNat + 32) else c

/-- The `Slug` function of `tools/build.ps1`. -/
def slug (s : String) : String :=
  String.mk ((trimHyphens (squashHyphens (squashNonWord s.data))).map lowerChar)

/-! ## Sitemap Builder (`tools/build.ps1`, sitemap section)

The directory walk `Get-ChildItem -Path $docs -Filter *.html -Recurse` is
represented by the list of site-relative paths it yields (`$rel` in the
script); the URL list and the emitted XML follow the script verbatim. -/

/-- The fixed origin prepended to every relative path. -/
def siteOrigin : String := "https://brian90cpr.github.io/ew2landers/"

/-- URL list accumulated in `$sitemap`: the site root first, then one URL
per enumerated HTML file, skipping the root `index.html`. -/
def sitemapUrls (relPaths : List String) : List String :=
  siteOrigin ::
    (relPaths.filter (fun r => r ≠ "index.html")).map (fun r => siteOrigin ++ r)

/-- The emitted `sitemap.xml` text. -/
def sitemapXml (relPaths : List String) : String :=
  "<?xml version=\"1.0\" encoding=\"UTF-8\"?>\n<urlset xmlns=\"http://www.sitemaps.org/schemas/sitemap/0.9\">\n"
  ++ ((sitemapUrls relPaths).map
        (fun u => "  <url><loc>" ++ u ++ "</loc></url>\n")).foldl
      (fun a b => a ++ b) ""
  ++ "</urlset>\n"

/-! ## Shared membership lemmas for the Filter Engine -/

theorem mem_filterSessions_iff (parse : String → Option Int) (now : Int)
    (t v : String) (ht : t ≠ "") (hv : v ≠ "") (l : List Session) (s : Session) :
    s ∈ filterSessions parse now ⟨some t, some v⟩ l ↔
      s ∈ l ∧ isUpcoming parse now s = true ∧ matchesFilter t v s = true := by
  unfold filterSessions
  rcases eq_or_ne l.length 0 with h0 | h0
  · rw [if_pos h0]
    rw [List.length_eq_zero] at h0
    subst h0
    simp
  · rw [if_neg h0]
    simp only [jsFalsyStr, if_neg ht, if_neg hv]
    rw [List.mem_filter, List.mem_filter, and_assoc]

theorem mem_filterSessionsMulti_iff (parse : String → Option Int) (now : Int)
    (t v : String) (ht : t ≠ "") (hv : v ≠ "") (l : List Session) (s : Session) :
    s ∈ filterSessionsMulti parse now ⟨some t, some v⟩ l ↔
      s ∈ l ∧ isUpcoming parse now s = true ∧
        matchesFilterMulti t v (if t = "course_id" then parseAllowList v else []) s = true := by
  unfold filterSessionsMulti
  rcases eq_or_ne l.length 0 with h0 | h0
  · rw [if_pos h0]
    rw [List.length_eq_zero] at h0
    subst h0
    simp
  · rw [if_neg h0]
    simp only [jsFalsyStr, if_neg ht, if_neg hv]
    rw [List.mem_filter, List.mem_filter, and_assoc]

theorem mem_filterSessions_isUpcoming (parse : String → Option Int) (now : Int)
    (f : Filter) (l : List Session) (s : Session)
    (h : s ∈ filterSessions parse now f l) : isUpcoming parse now s = true := by
  unfold filterSessions at h
  rcases eq_or_ne l.length 0 with h0 | h0
  · rw [if_pos h0] at h
    exact absurd h (List.not_mem_nil s)
  · rw [if_neg h0] at h
    rcases hmt : jsFalsyStr (Filter.type f) with _ | t <;>
      rcases hmv : jsFalsyStr (Filter.value f) with _ | v <;>
        simp only [hmt, hmv] at h
    · exact (List.mem_filter.mp h).2
    · exact (List.mem_filter.mp h).2
    · exact (List.mem_filter.mp h).2
    · exact (List.mem_filter.mp (List.mem_of_mem_filter h)).2

/-! ## Claim C4 — the Filter Engine excludes past / unparseable sessions -/

/-- C4: for every session list, every active filter, and every reference
time `now`, the Filter Engine's output excludes every session whose
`start` is missing (absent or empty), unparseable, or strictly before
`now`. -/
theorem C4_past_sessions_excluded (parse : String → Option Int) (now : Int)
    (f : Filter) (l : List Session) (s : Session)
    (h : s.start = none ∨ ∃ str, s.start = some str ∧
        (str = "" ∨ parse str = none ∨ ∃ t, parse str = some t ∧ t < now)) :
    s ∉ filterSessions parse now f l := by
  intro hmem
  have hup := mem_filterSessions_isUpcoming parse now f l s hmem
  have hfalse : isUpcoming parse now s = false := by
    unfold isUpcoming
    rcases h with h | ⟨str, hstr, h⟩
    · rw [h]
    · rw [hstr]
      show (if str = "" then false
        else match parse str with
          | none => false
          | some t => decide (now ≤ t)) = false
      rcases h with h | h | ⟨t, ht, hlt⟩
      · rw [if_pos h]
      · by_cases he : str = ""
        · rw [if_pos he]
        · rw [if_neg he, h]
      · by_cases he : str = ""
        · rw [if_pos he]
        · rw [if_neg he, ht]
          exact decide_eq_false (by omega)
  rw [hfalse] at hup
  exact Bool.false_ne_true hup

/-- Witness for C4 at a concrete input: a session dated strictly before
`now` is not in the output. -/
theorem C4_past_sessions_excluded_witness :
    ({ start := some "2020-01-01" } : Session) ∉
      filterSessions (fun _ => some (-3)) 0 ⟨none, none⟩
        [{ start := some "2020-01-01" }] :=
  C4_past_sessions_excluded (fun _ => some (-3)) 0 ⟨none, none⟩ _ _
    (Or.inr ⟨"2020-01-01", rfl, Or.inr (Or.inr ⟨-3, rfl, by decide⟩)⟩)

/-! ## Claim C5 — seat-count labels -/

/-- C5: the Card Renderer's seat label is `"Open seats"` when no numeric
seat count is present, `"Class full"` for `seats ≤ 0`, `"N seat(s) left"`
with the low-availability class for `1 ≤ seats ≤ 2`, and `"N seats open"`
otherwise. -/
theorem C5_seat_labels (n : Int) :
    seatInfo .absent = ("Open seats", "periscope-seats") ∧
    (n ≤ 0 → seatInfo (.num n) = ("Class full", "periscope-seats periscope-seats-full")) ∧
    (1 ≤ n → n ≤ 2 →
      seatInfo (.num n) =
        (toString n ++ (if n = 1 then " seat left" else " seats left"),
          "periscope-seats periscope-seats-low")) ∧
    (3 ≤ n → seatInfo (.num n) = (toString n ++ " seats open", "periscope-seats")) := by
  have hred : seatInfo (.num n) =
      (if n ≤ 0 then ("Class full", "periscope-seats periscope-seats-full")
       else if n ≤ 2 then
         (toString n ++ (if n = 1 then " seat left" else " seats left"),
           "periscope-seats periscope-seats-low")
       else (toString n ++ " seats open", "periscope-seats")) := rfl
  refine ⟨rfl, ?_, ?_, ?_⟩
  · intro h
    rw [hred, if_pos h]
  · intro h1 h2
    rw [hred, if_neg (by omega), if_pos h2]
  · intro h3
    rw [hred, if_neg (by omega), if_neg (by omega)]

/-- Witness for C5 at the spec's sample seat counts 0, 2, 10, and absent. -/
theorem C5_seat_labels_witness :
    seatInfo (.num 0) = ("Class full", "periscope-seats periscope-seats-full") ∧
    seatInfo (.num 2) = ("2 seats left", "periscope-seats periscope-seats-low") ∧
    seatInfo (.num 10) = ("10 seats open", "periscope-seats") ∧
    seatInfo .absent = ("Open seats", "periscope-seats") := by
  refine ⟨(C5_seat_labels 0).2.1 (by decide), ?_,
    ?_, (C5_seat_labels 0).1⟩
  · rw [(C5_seat_labels 2).2.2.1 (by decide) (by decide)]
    decide
  · rw [(C5_seat_labels 10).2.2.2 (by decide)]
    decide

/-! ## Claim C10 — non-number seat values render as "Open seats" -/

/-- C10: a `seats` value that is present but not a number (for example the
numeric string `"3"`) yields exactly the label of an absent `seats` field,
`"Open seats"` with the plain class; since `SeatVal` has only the
`absent`, `num`, and `nonNum` constructors, this also shows only actual
numbers ever produce the other labels. -/
theorem C10_non_number_seats (s : String) :
    seatInfo (.nonNum s) = ("Open seats", "periscope-seats") ∧
    seatInfo (.nonNum s) = seatInfo .absent :=
  ⟨rfl, rfl⟩

/-! ## Claim C6 — Client Schedule Loader success and failure paths -/

/-- C6: with a configured feed URL, a successful fetch yields the session
array whether or not a count field sits next to it in the body, and a
non-success HTTP status or a malformed body ends in the error display
state. -/
theorem C6_loader (url : String) (hu : url ≠ "") (c : Int) (l : List Session)
    (status : Nat) :
    load (some url) (.success (some { count := some c, sessions := some (.arr l) })) =
        .loaded l ∧
    load (some url) (.success (some { sessions := some (.arr l) })) = .loaded l ∧
    load (some url) (.httpFailure status) = .errorState ∧
    load (some url) .jsonError = .errorState := by
    have hj : jsFalsyStr (some url) = some url := by
      show (if url = "" then none else some url) = some url
      rw [if_neg hu]
    unfold load
    rw [hj]
    exact ⟨rfl, rfl, rfl, rfl⟩

/-- Witness for C6 at a concrete feed URL, count, session list, and
status. -/
theorem C6_loader_witness :
    load (some "data/schedule.json")
        (.success
          (some { count := some 1, sessions := some (.arr [{ start := some "s" }]) })) =
      .loaded [{ start := some "s" }] ∧
    load (some "data/schedule.json") (.httpFailure 500) = .errorState :=
  ⟨(C6_loader "data/schedule.json" (by decide) 1 [{ start := some "s" }] 500).1,
   (C6_loader "data/schedule.json" (by decide) 1 [{ start := some "s" }] 500).2.2.1⟩

/-! ## Claim C1 — `course_id` comma-list filtering -/

/-- C1 counterexample: the allow-list branch fails open when the value
parses to an empty list.  With value `","` the parsed allow-list is empty,
yet a future session with `course_id = "56"` is kept — so "a session
passes exactly when its `course_id` appears in the list" is false as a
universal statement. -/
theorem C1_counterexample :
    parseAllowList "," = [] ∧
    filterSessionsMulti (fun _ => some 1) 0 ⟨some "course_id", some ","⟩
        [{ start := some "s", course_id := some "56" }] =
      [{ start := some "s", course_id := some "56" }] ∧
    courseIdText { start := some "s", course_id := some "56" } ∉ parseAllowList "," := by
  refine ⟨by decide, by decide, by decide⟩

/-- C1 amended: whenever the comma-separated allow-list parsed from the
filter value is nonempty, a session is in the output of the multi-value
Filter Engine exactly when it is an upcoming input session whose
`course_id`, compared as text, appears in the allow-list (with value
`"12,34"` this keeps `course_id = 34` and excludes `course_id = 56`);
when the parsed list is empty the branch keeps every upcoming session. -/
theorem C1_course_id_allowlist (parse : String → Option Int) (now : Int)
    (v : String) (l : List Session) (s : Session)
    (hv : parseAllowList v ≠ []) :
    s ∈ filterSessionsMulti parse now ⟨some "course_id", some v⟩ l ↔
      s ∈ l ∧ isUpcoming parse now s = true ∧ courseIdText s ∈ parseAllowList v := by
  have hvne : v ≠ "" := by
    intro h
    subst h
    exact hv (by decide)
  rw [mem_filterSessionsMulti_iff parse now "course_id" v (by decide) hvne l s]
  have hm : matchesFilterMulti "course_id" v
      (if ("course_id" : String) = "course_id" then parseAllowList v else []) s =
        (parseAllowList v).contains (courseIdText s) := by
    rw [if_pos rfl]
    unfold matchesFilterMulti
    rw [if_neg (by decide), if_neg (by decide), if_neg (by decide), if_pos rfl,
      if_neg (fun h => hv (List.length_eq_zero.mp h))]
  rw [hm]
  constructor
  · rintro ⟨h1, h2, h3⟩
    exact ⟨h1, h2, List.elem_iff.mp h3⟩
  · rintro ⟨h1, h2, h3⟩
    exact ⟨h1, h2, List.elem_iff.mpr h3⟩

/-- Witness for C1 at value `"12,34"`: the session with `course_id = "34"`
is kept and the one with `course_id = "56"` is excluded. -/
theorem C1_course_id_allowlist_witness :
    ({ start := some "s", course_id := some "34" } : Session) ∈
      filterSessionsMulti (fun _ => some 1) 0 ⟨some "course_id", some "12,34"⟩
        [{ start := some "s", course_id := some "34" },
          { start := some "s", course_id := some "56" }] ∧
    ({ start := some "s", course_id := some "56" } : Session) ∉
      filterSessionsMulti (fun _ => some 1) 0 ⟨some "course_id", some "12,34"⟩
        [{ start := some "s", course_id := some "34" },
          { start := some "s", course_id := some "56" }] := by
  constructor
  · exact (C1_course_id_allowlist (fun _ => some 1) 0 "12,34" _ _ (by decide)).mpr
      ⟨by decide, by decide, by decide⟩
  · intro h
    have h2 := (C1_course_id_allowlist (fun _ => some 1) 0 "12,34" _ _ (by decide)).mp h
    exact absurd h2.2.2 (by decide)

/-! ## Claim C7 — `delivery` vs `deliveryMode` filter types -/

/-- C7 counterexample: the Filter Engine only recognizes the type string
`"delivery"`; the type string `"deliveryMode"` hits the fail-open default,
so the two produce different results and `"deliveryMode"` keeps a
non-matching session. -/
theorem C7_counterexample :
    filterSessions (fun _ => some 1) 0 ⟨some "deliveryMode", some "classroom"⟩
        [{ start := some "s", deliveryMode := some "online" }] =
      [{ start := some "s", deliveryMode := some "online" }] ∧
    filterSessions (fun _ => some 1) 0 ⟨some "delivery", some "classroom"⟩
        [{ start := some "s", deliveryMode := some "online" }] = [] := by
  refine ⟨by decide, by decide⟩

/-- C7 amended: with filter type `"delivery"` the Filter Engine keeps
exactly the upcoming sessions whose `deliveryMode` equals the filter
value, while the type `"deliveryMode"` is unrecognized and fails open,
keeping every upcoming session regardless of the value. -/
theorem C7_delivery_vs_deliveryMode (parse : String → Option Int) (now : Int)
    (v : String) (l : List Session) (s : Session) (hv : v ≠ "") :
    (s ∈ filterSessions parse now ⟨some "delivery", some v⟩ l ↔
      s ∈ l ∧ isUpcoming parse now s = true ∧ s.deliveryMode = some v) ∧
    (s ∈ filterSessions parse now ⟨some "deliveryMode", some v⟩ l ↔
      s ∈ l ∧ isUpcoming parse now s = true) := by
  constructor
  · rw [mem_filterSessions_iff parse now "delivery" v (by decide) hv l s]
    have hm : matchesFilter "delivery" v s = (s.deliveryMode == some v) := by
      unfold matchesFilter
      rw [if_neg (by decide), if_neg (by decide), if_pos rfl]
    rw [hm]
    constructor
    · rintro ⟨h1, h2, h3⟩
      exact ⟨h1, h2, beq_iff_eq.mp h3⟩
    · rintro ⟨h1, h2, h3⟩
      exact ⟨h1, h2, beq_iff_eq.mpr h3⟩
  · rw [mem_filterSessions_iff parse now "deliveryMode" v (by decide) hv l s]
    have hm : matchesFilter "deliveryMode" v s = true := by
      unfold matchesFilter
      rw [if_neg (by decide), if_neg (by decide), if_neg (by decide),
        if_neg (by decide), if_neg (by decide)]
    rw [hm]
    constructor
    · rintro ⟨h1, h2, _⟩
      exact ⟨h1, h2⟩
    · rintro ⟨h1, h2⟩
      exact ⟨h1, h2, rfl⟩

/-- Witness for C7: with value `"online"`, the `"delivery"` type keeps a
matching session, and the `"deliveryMode"` type keeps a session that does
not match the value. -/
theorem C7_delivery_vs_deliveryMode_witness :
    ({ start := some "s", deliveryMode := some "online" } : Session) ∈
      filterSessions (fun _ => some 1) 0 ⟨some "delivery", some "online"⟩
        [{ start := some "s", deliveryMode := some "online" }] ∧
    ({ start := some "s", deliveryMode := some "online" } : Session) ∈
      filterSessions (fun _ => some 1) 0 ⟨some "deliveryMode", some "classroom"⟩
        [{ start := some "s", deliveryMode := some "online" }] := by
  constructor
  · exact (C7_delivery_vs_deliveryMode (fun _ => some 1) 0 "online" _ _
      (by decide)).1.mpr ⟨by decide, by decide, rfl⟩
  · exact (C7_delivery_vs_deliveryMode (fun _ => some 1) 0 "classroom" _ _
      (by decide)).2.mpr ⟨by decide, by decide⟩

/-! ## Claim C2 — `refresh()` re-fetch behaviour -/

/-- C2 counterexample: after a successful load whose feed contained an
empty session array, data has been loaded (`hasLoaded = true`) yet
`refresh()` calls `load()` — a renewed network fetch — because the
dispatch tests only `state.allSessions.length`. -/
theorem C2_counterexample :
    (runEvents [WidgetEvent.fetchOk []]).hasLoaded = true ∧
    refreshAction (runEvents [WidgetEvent.fetchOk []]) = .callLoad ∧
    RefreshAction.callLoad ≠ RefreshAction.rerender := by
  refine ⟨rfl, rfl, by decide⟩

theorem foldl_stepEvent_all_fail (st : WidgetState) :
    ∀ es : List WidgetEvent, (∀ e ∈ es, e = WidgetEvent.fetchFail) →
      es.foldl stepEvent st = st := by
  intro es
  induction es generalizing st with
  | nil => intro _; rfl
  | cons e es ih =>
    intro hall
    have he : e = WidgetEvent.fetchFail := hall e (List.mem_cons_self e es)
    subst he
    rw [List.foldl_cons]
    exact ih st (fun e' he' => hall e' (List.mem_cons_of_mem _ he'))

/-- C2 amended: `refresh()` re-renders without fetching exactly when the
stored session list is nonempty; in particular if every completed fetch so
far failed (no data ever loaded) the stored list is still empty and
`refresh()` invokes `load()`, the initial fetch.  (The counterexample
shows the dispatch keys on list emptiness, not on whether a load ever
succeeded.) -/
theorem C2_refresh_dispatch (es : List WidgetEvent) :
    (refreshAction (runEvents es) = .rerender ↔ (runEvents es).allSessions ≠ []) ∧
    ((∀ e ∈ es, e = WidgetEvent.fetchFail) → refreshAction (runEvents es) = .callLoad) := by
  constructor
  · rcases hn : (runEvents es).allSessions with _ | ⟨a, rest⟩
    · rw [refreshAction, hn]
      simp
    · rw [refreshAction, hn]
      simp
  · intro hall
    have h := foldl_stepEvent_all_fail initState es hall
    unfold runEvents
    rw [h]
    rfl

/-- Witness for C2: after a single failed fetch, `refresh()` triggers the
initial fetch. -/
theorem C2_refresh_dispatch_witness :
    refreshAction (runEvents [WidgetEvent.fetchFail]) = .callLoad :=
  (C2_refresh_dispatch [WidgetEvent.fetchFail]).2 (by
    intro e he
    rw [List.mem_singleton] at he
    exact he)

/-! ## Claim C3 — escaping of interpolated card content -/

theorem escChars_eq_self (c : Char)
    (h : (c = '&' ∨ c = '<' ∨ c = '>' ∨ c = '"' ∨ c = '\'') → False) :
    escChars c = [c] := by
  unfold escChars
  rw [if_neg (fun he => h (Or.inl he)),
    if_neg (fun he => h (Or.inr (Or.inl he))),
    if_neg (fun he => h (Or.inr (Or.inr (Or.inl he)))),
    if_neg (fun he => h (Or.inr (Or.inr (Or.inr (Or.inl he))))),
    if_neg (fun he => h (Or.inr (Or.inr (Or.inr (Or.inr he)))))]

theorem escapeConcat_eq_self (l : List Char)
    (h : ∀ c ∈ l, (c = '&' ∨ c = '<' ∨ c = '>' ∨ c = '"' ∨ c = '\'') → False) :
    escapeConcat l = l := by
  induction l with
  | nil => rfl
  | cons c cs ih =>
    show escChars c ++ escapeConcat cs = c :: cs
    rw [escChars_eq_self c (h c (List.mem_cons_self c cs)),
      ih (fun c' h' => h c' (List.mem_cons_of_mem _ h'))]
    rfl

theorem escapeHtml_of_noSpecial (s : String) (h : noSpecialChars s = true) :
    escapeHtml s = s := by
  have hx : ∀ c ∈ s.data, (c = '&' ∨ c = '<' ∨ c = '>' ∨ c = '"' ∨ c = '\'') → False := by
    intro c hc hor
    have hall := List.all_eq_true.mp h c hc
    have htrue : (c = '&' || c = '<' || c = '>' || c = '"' || c = '\'') = true := by
      rcases hor with h1 | h1 | h1 | h1 | h1 <;> simp [h1]
    rw [htrue] at hall
    exact Bool.false_ne_true hall
  unfold escapeHtml
  rw [escapeConcat_eq_self s.data hx]

theorem noSpecial_append (a b : String) (ha : noSpecialChars a = true)
    (hb : noSpecialChars b = true) : noSpecialChars (a ++ b) = true := by
  unfold noSpecialChars at *
  rw [String.data_append, List.all_append, ha, hb]
  rfl

set_option maxRecDepth 10000 in
/-- C3 counterexample: a session whose `course_id` carries markup text is
interpolated into the card unescaped — the produced markup differs from
the fully-escaped rendering and contains a raw `<script>` fragment — so
"all interpolated text content is escaped" is false for the course-id
attribute (and likewise for the link target built from `session_id`). -/
theorem C3_counterexample :
    buildCardHtml (fun _ => none) (fun _ => "") (fun _ => "")
        "https://example.com/schedule"
        { course_id := some "\"><script>alert(1)</script>" } ≠
      buildCardHtmlEscAll (fun _ => none) (fun _ => "") (fun _ => "")
        "https://example.com/schedule"
        { course_id := some "\"><script>alert(1)</script>" } ∧
    strContains
      (buildCardHtml (fun _ => none) (fun _ => "") (fun _ => "")
        "https://example.com/schedule"
        { course_id := some "\"><script>alert(1)</script>" })
      "<script>" = true := by
  refine ⟨by decide, by decide⟩

/-- C3 amended: the title and location (together with every constant
fragment) are escaped before insertion, but the registration-link target
and the course-id attribute are interpolated raw: the rendering agrees
with the fully-escaped rendering exactly on sessions whose `course_id`
and `session_id` texts (and the fallback link) contain no
markup-significant characters, for arbitrary title/location content. -/
theorem C3_escaping (parse : String → Option Int) (fmtD fmtT : Int → String)
    (link : String) (session : Session)
    (hcid : noSpecialChars (jsOrEmpty session.course_id) = true)
    (hsid : noSpecialChars (jsOrEmpty session.session_id) = true)
    (hlink : noSpecialChars link = true) :
    buildCardHtml parse fmtD fmtT link session =
      buildCardHtmlEscAll parse fmtD fmtT link session := by
  have hurl : noSpecialChars (registerUrl link session) = true := by
    unfold registerUrl
    rcases hss : session.session_id with _ | x
    · show noSpecialChars (match jsFalsyStr none with
        | some sid => "https://coastalcprtraining.enrollware.com/enroll?id=" ++ sid
        | none => link) = true
      exact hlink
    · show noSpecialChars (match jsFalsyStr (some x) with
        | some sid => "https://coastalcprtraining.enrollware.com/enroll?id=" ++ sid
        | none => link) = true
      by_cases hx : x = ""
      · rw [show jsFalsyStr (some x) = none by rw [jsFalsyStr, if_pos hx]]
        exact hlink
      · rw [show jsFalsyStr (some x) = some x by rw [jsFalsyStr, if_neg hx]]
        apply noSpecial_append _ _ (by decide)
        rw [hss] at hsid
        exact hsid
  simp only [buildCardHtml, buildCardHtmlEscAll]
  rw [escapeHtml_of_noSpecial _ hcid, escapeHtml_of_noSpecial _ hurl]

/-- Witness for C3 at a benign session (digit-only identifiers): the card
markup equals the fully-escaped markup. -/
theorem C3_escaping_witness :
    buildCardHtml (fun _ => none) (fun _ => "") (fun _ => "")
        "https://example.com/schedule"
        { course_id := some "123", session_id := some "999",
          title := some "BLS Provider", location := some "NC - Wilmington" } =
      buildCardHtmlEscAll (fun _ => none) (fun _ => "") (fun _ => "")
        "https://example.com/schedule"
        { course_id := some "123", session_id := some "999",
          title := some "BLS Provider", location := some "NC - Wilmington" } :=
  C3_escaping (fun _ => none) (fun _ => "") (fun _ => "")
    "https://example.com/schedule" _ (by decide) (by decide) (by decide)

/-! ## Claim C8 — sitemap entry count and uniqueness -/

/-- C8: for an output tree whose enumeration yields distinct, nonempty
relative paths, the emitted URL list has exactly one entry per generated
HTML file other than the root index page, plus one entry for the site
root, with no duplicate URLs. -/
theorem C8_sitemap_entries (relPaths : List String)
    (hnd : relPaths.Nodup) (hne : "" ∉ relPaths) :
    (sitemapUrls relPaths).length =
      (relPaths.filter (fun r => r ≠ "index.html")).length + 1 ∧
    (sitemapUrls relPaths).Nodup := by
  constructor
  · unfold sitemapUrls
    rw [List.length_cons, List.length_map]
  · unfold sitemapUrls
    rw [List.nodup_cons]
    constructor
    · intro hmem
      rw [List.mem_map] at hmem
      obtain ⟨r, hr, heq⟩ := hmem
      have hlen := congrArg String.length heq
      rw [String.length_append] at hlen
      have hr0 : r.data.length = 0 := by
        have : siteOrigin.length + r.length = siteOrigin.length := hlen
        have hl0 : r.length = 0 := by omega
        exact hl0
      have hrempty : r = "" := String.ext (List.length_eq_zero.mp hr0)
      subst hrempty
      exact hne (List.mem_of_mem_filter hr)
    · refine List.Nodup.map_on ?_ (hnd.filter _)
      intro a _ b _ hab
      have hd := congrArg String.data hab
      rw [String.data_append, String.data_append] at hd
      exact String.ext (List.append_cancel_left hd)

/-- Witness for C8 on a concrete three-file output tree (root index plus
two generated pages): three `<loc>` URLs, all distinct. -/
theorem C8_sitemap_entries_witness :
    (sitemapUrls ["index.html", "courses/heartsaver-cpr/index.html",
        "sessions/2026/01/05/heartsaver-cpr-999.html"]).length =
      (["index.html", "courses/heartsaver-cpr/index.html",
        "sessions/2026/01/05/heartsaver-cpr-999.html"].filter
          (fun r => r ≠ "index.html")).length + 1 ∧
    (sitemapUrls ["index.html", "courses/heartsaver-cpr/index.html",
        "sessions/2026/01/05/heartsaver-cpr-999.html"]).Nodup :=
  C8_sitemap_entries
    ["index.html", "courses/heartsaver-cpr/index.html",
      "sessions/2026/01/05/heartsaver-cpr-999.html"]
    (by decide) (by decide)

/-! ## Claim C9 — `slug` is idempotent

The proof characterizes `slug` output: every character is a (lower-case)
word character or a hyphen, hyphens are never adjacent, and the string
neither starts nor ends with a hyphen; every replacement pass is the
identity on such strings. -/

theorem toNat_ofNat_valid (n : Nat) (h : n.isValidChar) : (Char.ofNat n).toNat = n := by
  simp [Char.ofNat, h, Char.ofNatAux, Char.toNat, UInt32.toNat, BitVec.toNat_ofNatLt]

theorem lowerChar_toNat_of_isUpper (c : Char) (h : c.isUpper = true) :
    (lowerChar c).toNat = c.toNat + 32 ∧
      97 ≤ (lowerChar c).toNat ∧ (lowerChar c).toNat ≤ 122 := by
  have hb : 65 ≤ c.toNat ∧ c.toNat ≤ 90 := by
    simp [Char.isUpper] at h
    exact ⟨h.1, h.2⟩
  have hv : (c.toNat + 32).isValidChar := Or.inl (by omega)
  unfold lowerChar
  rw [if_pos h, toNat_ofNat_valid _ hv]
  omega

theorem isUpper_lowerChar (c : Char) : (lowerChar c).isUpper = false := by
  by_cases h : c.isUpper = true
  · obtain ⟨-, h1, h2⟩ := lowerChar_toNat_of_isUpper c h
    have hv1 : 97 ≤ (lowerChar c).val.toBitVec.toNat := h1
    have hv2 : (lowerChar c).val.toBitVec.toNat ≤ 122 := h2
    simp [Char.isUpper, UInt32.le_def, UInt32.lt_def, BitVec.le_def, BitVec.lt_def]
    omega
  · have hf : lowerChar c = c := by
      unfold lowerChar
      rw [if_neg h]
    rw [hf]
    exact Bool.not_eq_true _ ▸ h

theorem lowerChar_idem (c : Char) : lowerChar (lowerChar c) = lowerChar c := by
  have h := isUpper_lowerChar c
  show (if (lowerChar c).isUpper then Char.ofNat ((lowerChar c).toNat + 32)
    else lowerChar c) = lowerChar c
  rw [if_neg (by rw [h]; exact Bool.false_ne_true)]

theorem isWordChar_lowerChar (c : Char) (h : isWordChar c = true) :
    isWordChar (lowerChar c) = true := by
  by_cases hu : c.isUpper = true
  · obtain ⟨-, h1, h2⟩ := lowerChar_toNat_of_isUpper c hu
    have hv1 : 97 ≤ (lowerChar c).val.toBitVec.toNat := h1
    have hv2 : (lowerChar c).val.toBitVec.toNat ≤ 122 := h2
    simp [isWordChar, Char.isAlpha, Char.isLower, Char.isUpper, Char.isDigit,
      UInt32.le_def, UInt32.lt_def, BitVec.le_def, BitVec.lt_def]
    omega
  · have hf : lowerChar c = c := by
      unfold lowerChar
      rw [if_neg hu]
    rw [hf]
    exact h

theorem eq_hyphen_of_lowerChar (c : Char) (h : lowerChar c = '-') : c = '-' := by
  by_cases hu : c.isUpper = true
  · obtain ⟨-, h1, h2⟩ := lowerChar_toNat_of_isUpper c hu
    rw [h] at h1
    exact absurd h1 (by decide)
  · have hf : lowerChar c = c := by
      unfold lowerChar
      rw [if_neg hu]
    rw [hf] at h
    exact h

theorem lowerChar_ne_hyphen (c : Char) (h : isWordChar c = true) : lowerChar c ≠ '-' := by
  intro hc
  rw [eq_hyphen_of_lowerChar c hc] at h
  exact absurd h (by decide)

/-- Every character is a word character or a hyphen. -/
def wordOrHyphen (l : List Char) : Prop :=
  ∀ c ∈ l, isWordChar c = true ∨ c = '-'

/-- No two adjacent characters are both hyphens. -/
abbrev okPair (a b : Char) : Prop := ¬(a = '-' ∧ b = '-')

theorem squashNonWordGo_mem : ∀ (l : List Char) (b : Bool) (d : Char),
    d ∈ squashNonWordGo b l → isWordChar d = true ∨ d = '-'
  | [], _, d => fun hd => absurd hd (List.not_mem_nil d)
  | c :: cs, b, d => fun hd => by
    unfold squashNonWordGo at hd
    by_cases hw : isWordChar c = true
    · rw [if_pos hw] at hd
      rcases List.mem_cons.mp hd with h | h
      · exact Or.inl (h ▸ hw)
      · exact squashNonWordGo_mem cs false d h
    · rw [if_neg hw] at hd
      by_cases hb : b = true
      · rw [if_pos hb] at hd
        exact squashNonWordGo_mem cs true d hd
      · rw [if_neg hb] at hd
        rcases List.mem_cons.mp hd with h | h
        · exact Or.inr h
        · exact squashNonWordGo_mem cs true d h

theorem squashNonWordGo_true_head : ∀ (l : List Char) (d : Char),
    (squashNonWordGo true l).head? = some d → isWordChar d = true
  | [], d => fun hd => by
    exact absurd hd (by intro h; cases h)
  | c :: cs, d => fun hd => by
    unfold squashNonWordGo at hd
    by_cases hw : isWordChar c = true
    · rw [if_pos hw] at hd
      rw [List.head?_cons] at hd
      exact (Option.some.inj hd) ▸ hw
    · rw [if_neg hw, if_pos rfl] at hd
      exact squashNonWordGo_true_head cs d hd

theorem squashNonWordGo_chain : ∀ (l : List Char) (b : Bool),
    List.Chain' okPair (squashNonWordGo b l)
  | [], b => by
    unfold squashNonWordGo
    exact List.chain'_nil
  | c :: cs, b => by
    unfold squashNonWordGo
    by_cases hw : isWordChar c = true
    · rw [if_pos hw, List.chain'_cons']
      refine ⟨?_, squashNonWordGo_chain cs false⟩
      intro y _ hpair
      rw [hpair.1] at hw
      exact absurd hw (by decide)
    · rw [if_neg hw]
      by_cases hb : b = true
      · rw [if_pos hb]
        exact squashNonWordGo_chain cs true
      · rw [if_neg hb, List.chain'_cons']
        refine ⟨?_, squashNonWordGo_chain cs true⟩
        intro y hy hpair
        have hw' := squashNonWordGo_true_head cs y (Option.mem_def.mp hy)
        rw [hpair.2] at hw'
        exact absurd hw' (by decide)

theorem squashNonWordGo_fixed : ∀ (l : List Char),
    wordOrHyphen l → List.Chain' okPair l →
      squashNonWordGo false l = l ∧
        ((∀ d, l.head? = some d → d ≠ '-') → squashNonWordGo true l = l)
  | [] => fun _ _ => ⟨rfl, fun _ => rfl⟩
  | c :: cs => fun hwh hch => by
    have hwh' : wordOrHyphen cs := fun d hd => hwh d (List.mem_cons_of_mem _ hd)
    have hch' : List.Chain' okPair cs := (List.chain'_cons'.mp hch).2
    have hhead := (List.chain'_cons'.mp hch).1
    have ih := squashNonWordGo_fixed cs hwh' hch'
    rcases hwh c (List.mem_cons_self c cs) with hw | hh
    · constructor
      · unfold squashNonWordGo
        rw [if_pos hw, ih.1]
      · intro _
        unfold squashNonWordGo
        rw [if_pos hw, ih.1]
    · subst hh
      constructor
      · unfold squashNonWordGo
        rw [if_neg (by decide : ¬(isWordChar '-' = true)), if_neg Bool.false_ne_true]
        have hcs : ∀ d, cs.head? = some d → d ≠ '-' := by
          intro d hd hd'
          exact hhead d (Option.mem_def.mpr hd) ⟨rfl, hd'⟩
        rw [ih.2 hcs]
      · intro hhd
        exact absurd rfl (hhd '-' rfl)

theorem squashHyphensGo_fixed : ∀ (l : List Char), List.Chain' okPair l →
    squashHyphensGo false l = l ∧
      ((∀ d, l.head? = some d → d ≠ '-') → squashHyphensGo true l = l)
  | [] => fun _ => ⟨rfl, fun _ => rfl⟩
  | c :: cs => fun hch => by
    have hch' : List.Chain' okPair cs := (List.chain'_cons'.mp hch).2
    have hhead := (List.chain'_cons'.mp hch).1
    have ih := squashHyphensGo_fixed cs hch'
    by_cases hc : c = '-'
    · subst hc
      constructor
      · unfold squashHyphensGo
        rw [if_pos rfl, if_neg Bool.false_ne_true]
        have hcs : ∀ d, cs.head? = some d → d ≠ '-' := by
          intro d hd hd'
          exact hhead d (Option.mem_def.mpr hd) ⟨rfl, hd'⟩
        rw [ih.2 hcs]
      · intro hhd
        exact absurd rfl (hhd '-' rfl)
    · constructor
      · unfold squashHyphensGo
        rw [if_neg hc, ih.1]
      · intro _
        unfold squashHyphensGo
        rw [if_neg hc, ih.1]

theorem mem_trimLeadHyphen (l : List Char) (d : Char)
    (hd : d ∈ trimLeadHyphen l) : d ∈ l := by
  cases l with
  | nil => exact hd
  | cons c cs =>
    rw [show trimLeadHyphen (c :: cs) = if c = '-' then cs else c :: cs from rfl] at hd
    by_cases hc : c = '-'
    · rw [if_pos hc] at hd
      exact List.mem_cons_of_mem _ hd
    · rw [if_neg hc] at hd
      exact hd

theorem chain_trimLeadHyphen (l : List Char) (h : List.Chain' okPair l) :
    List.Chain' okPair (trimLeadHyphen l) := by
  cases l with
  | nil => exact h
  | cons c cs =>
    rw [show trimLeadHyphen (c :: cs) = if c = '-' then cs else c :: cs from rfl]
    by_cases hc : c = '-'
    · rw [if_pos hc]
      exact (List.chain'_cons'.mp h).2
    · rw [if_neg hc]
      exact h

theorem head_trimLeadHyphen (l : List Char) (h : List.Chain' okPair l) :
    ∀ d, (trimLeadHyphen l).head? = some d → d ≠ '-' := by
  cases l with
  | nil => intro d hd; cases hd
  | cons c cs =>
    intro d hd hd'
    rw [show trimLeadHyphen (c :: cs) = if c = '-' then cs else c :: cs from rfl] at hd
    by_cases hc : c = '-'
    · rw [if_pos hc] at hd
      subst hc
      exact (List.chain'_cons'.mp h).1 d (Option.mem_def.mpr hd) ⟨rfl, hd'⟩
    · rw [if_neg hc, List.head?_cons] at hd
      exact hc ((Option.some.inj hd) ▸ hd')

theorem getLast_trimLeadHyphen (l : List Char) (d : Char)
    (hd : (trimLeadHyphen l).getLast? = some d) : l.getLast? = some d := by
  cases l with
  | nil => exact hd
  | cons c cs =>
    rw [show trimLeadHyphen (c :: cs) = if c = '-' then cs else c :: cs from rfl] at hd
    by_cases hc : c = '-'
    · rw [if_pos hc] at hd
      cases cs with
      | nil => cases hd
      | cons c' cs' =>
        rw [show (c :: c' :: cs').getLast? = (c' :: cs').getLast? from
          List.getLast?_cons_cons]
        exact hd
    · rw [if_neg hc] at hd
      exact hd

theorem trimLeadHyphen_fixed (l : List Char)
    (h : ∀ d, l.head? = some d → d ≠ '-') : trimLeadHyphen l = l := by
  cases l with
  | nil => rfl
  | cons c cs =>
    rw [show trimLeadHyphen (c :: cs) = if c = '-' then cs else c :: cs from rfl]
    rw [if_neg (h c rfl)]

theorem trimHyphens_fixed (l : List Char)
    (hh : ∀ d, l.head? = some d → d ≠ '-')
    (hl : ∀ d, l.getLast? = some d → d ≠ '-') : trimHyphens l = l := by
  unfold trimHyphens
  rw [trimLeadHyphen_fixed l hh]
  rw [trimLeadHyphen_fixed l.reverse (by
    intro d hd
    rw [List.head?_reverse] at hd
    exact hl d hd)]
  exact List.reverse_reverse l

theorem okPair_flip (a b : Char) (h : okPair a b) : okPair b a :=
  fun hp => h ⟨hp.2, hp.1⟩

theorem trimHyphens_props (l : List Char) (hwh : wordOrHyphen l)
    (hch : List.Chain' okPair l) :
    wordOrHyphen (trimHyphens l) ∧ List.Chain' okPair (trimHyphens l) ∧
      (∀ d, (trimHyphens l).head? = some d → d ≠ '-') ∧
      (∀ d, (trimHyphens l).getLast? = some d → d ≠ '-') := by
  have hch1 : List.Chain' okPair (trimLeadHyphen l) := chain_trimLeadHyphen l hch
  have hch2 : List.Chain' okPair (trimLeadHyphen l).reverse :=
    List.chain'_reverse.mpr (hch1.imp (fun a b h => okPair_flip a b h))
  have hch3 : List.Chain' okPair (trimLeadHyphen (trimLeadHyphen l).reverse) :=
    chain_trimLeadHyphen _ hch2
  refine ⟨?_, ?_, ?_, ?_⟩
  · intro d hd
    unfold trimHyphens at hd
    rw [List.mem_reverse] at hd
    have := mem_trimLeadHyphen _ _ hd
    rw [List.mem_reverse] at this
    exact hwh d (mem_trimLeadHyphen _ _ this)
  · unfold trimHyphens
    exact List.chain'_reverse.mpr (hch3.imp (fun a b h => okPair_flip a b h))
  · intro d hd
    unfold trimHyphens at hd
    rw [List.head?_reverse] at hd
    have := getLast_trimLeadHyphen _ _ hd
    rw [List.getLast?_reverse] at this
    exact head_trimLeadHyphen l hch d this
  · intro d hd
    unfold trimHyphens at hd
    rw [List.getLast?_reverse] at hd
    exact head_trimLeadHyphen _ hch2 d hd

theorem slug_core_props (l : List Char) :
    wordOrHyphen (trimHyphens (squashHyphens (squashNonWord l))) ∧
      List.Chain' okPair (trimHyphens (squashHyphens (squashNonWord l))) ∧
      (∀ d, (trimHyphens (squashHyphens (squashNonWord l))).head? = some d → d ≠ '-') ∧
      (∀ d, (trimHyphens (squashHyphens (squashNonWord l))).getLast? = some d → d ≠ '-') := by
  have hwh : wordOrHyphen (squashNonWord l) := by
    intro d hd
    rcases squashNonWordGo_mem l false d hd with h | h
    · exact Or.inl h
    · exact Or.inr h
  have hch : List.Chain' okPair (squashNonWord l) := squashNonWordGo_chain l false
  have hsq : squashHyphens (squashNonWord l) = squashNonWord l :=
    (squashHyphensGo_fixed _ hch).1
  rw [hsq]
  exact trimHyphens_props _ hwh hch

/-- C9: the `Slug` function of the build script is idempotent. -/
theorem C9_slug_idempotent (s : String) : slug (slug s) = slug s := by
  unfold slug
  apply String.ext
  show (trimHyphens (squashHyphens (squashNonWord
      ((trimHyphens (squashHyphens (squashNonWord s.data))).map lowerChar)))).map lowerChar =
    (trimHyphens (squashHyphens (squashNonWord s.data))).map lowerChar
  obtain ⟨hwh, hch, hhd, hlt⟩ := slug_core_props s.data
  set m := trimHyphens (squashHyphens (squashNonWord s.data)) with hm
  have hwhY : wordOrHyphen (m.map lowerChar) := by
    intro d hd
    rw [List.mem_map] at hd
    obtain ⟨c, hc, hlc⟩ := hd
    rcases hwh c hc with h | h
    · exact Or.inl (hlc ▸ isWordChar_lowerChar c h)
    · subst h
      exact Or.inr (hlc ▸ (by decide : lowerChar '-' = '-'))
  have hchY : List.Chain' okPair (m.map lowerChar) := by
    rw [List.chain'_map]
    exact hch.imp (fun a b h hp =>
      h ⟨eq_hyphen_of_lowerChar a hp.1, eq_hyphen_of_lowerChar b hp.2⟩)
  have hhdY : ∀ d, (m.map lowerChar).head? = some d → d ≠ '-' := by
    intro d hd hd'
    rw [List.head?_map] at hd
    cases hc : m.head? with
    | none => rw [hc] at hd; cases hd
    | some c =>
      rw [hc] at hd
      have : lowerChar c = d := Option.some.inj hd
      exact hhd c hc (eq_hyphen_of_lowerChar c (this.trans hd'))
  have hltY : ∀ d, (m.map lowerChar).getLast? = some d → d ≠ '-' := by
    intro d hd hd'
    rw [List.getLast?_map] at hd
    cases hc : m.getLast? with
    | none => rw [hc] at hd; cases hd
    | some c =>
      rw [hc] at hd
      have : lowerChar c = d := Option.some.inj hd
      exact hlt c hc (eq_hyphen_of_lowerChar c (this.trans hd'))
  have h1 : squashNonWord (m.map lowerChar) = m.map lowerChar :=
    (squashNonWordGo_fixed _ hwhY hchY).1
  have h2 : squashHyphens (m.map lowerChar) = m.map lowerChar :=
    (squashHyphensGo_fixed _ hchY).1
  have h3 : trimHyphens (m.map lowerChar) = m.map lowerChar :=
    trimHyphens_fixed _ hhdY hltY
  rw [h1, h2, h3, List.map_map]
  exact List.map_congr_left (fun c _ => lowerChar_idem c)

end EW2
